import Mathlib

/-!
Verification of `scripts/plot_results.py`, the Celero recordTable result
parser and plotting helper of the arrayfire_benchmark repository.

The Python functions are shallowly embedded as Lean definitions:

* a file is a list of lines (strings without their trailing newline, so the
  `strip("\n")` of the source is the identity here);
* Python's `str.split(',')` is `splitOnComma`, `str.isdigit` is `pyIsDigit`
  (ASCII digits; the benchmark files are ASCII), `int` on digit strings is
  `pyInt`;
* Python floats are modelled as exact rational numbers: `pyFloat` parses the
  usual finite decimal literals (optional sign, decimal point, exponent) to
  `Option ℚ` and returns `none` exactly when `float(...)` raises
  `ValueError`; non-finite literals such as `inf`/`nan` and rounding to
  binary doubles are outside the model, and no claim below depends on them;
* the state machine of `read_celero_recordTable` becomes a fold of
  `processLine` over the lines, carrying the same mutable variables in a
  `ReaderState`; the uncaught `ValueError` of `map(float, ...)` becomes an
  `Except.error`;
* Python's `dict(zip(other_fields, other_data))` is kept as the list of
  pairs `other_fields.zip other_data` (the claims never involve duplicate
  header keys, where `dict` would collapse entries).
-/

/-- Decimal value of a list of digit characters, as `int` computes it on a
digit string. -/
def decToNat (cs : List Char) : Nat :=
  cs.foldl (fun n c => 10 * n + (c.toNat - 48)) 0

/-- Python's `str.isdigit`: nonempty and all characters are digits. -/
def pyIsDigit (s : String) : Bool :=
  !s.data.isEmpty && s.data.all Char.isDigit

/-- Python's `int` restricted to digit strings (the only use in the source,
after the `isdigit` filter). -/
def pyInt (s : String) : Nat :=
  decToNat s.data

/-- Python's `str.split(',')` on a list of characters: splits at every comma,
keeping empty chunks. -/
def splitCommaAux : List Char → List (List Char)
  | [] => [[]]
  | c :: rest =>
    if c = ',' then [] :: splitCommaAux rest
    else
      match splitCommaAux rest with
      | [] => [[c]]
      | g :: gs => (c :: g) :: gs

/-- Python's `line.split(',')`. -/
def splitOnComma (s : String) : List String :=
  (splitCommaAux s.data).map (fun cs => String.mk cs)

/-- Python's `line.split(',')` followed by `filter(lambda x: x != "", ...)`, the
per-line tokenisation of `read_celero_recordTable` (source lines 194-195). -/
def splitFields (line : String) : List String :=
  (splitOnComma line).filter (fun x => x != "")

/-- Builds the rational `± n / d` in lowest terms directly through the `Rat`
structure constructor, so that concrete values reduce by `decide`.
Returns `0` when `d = 0` (never reached by `pyFloat`). -/
def ratNormalize (sgnNeg : Bool) (n d : Nat) : ℚ :=
  if hd : d = 0 then 0
  else
    let g := n.gcd d
    have hg : 0 < g := Nat.gcd_pos_of_pos_right n (Nat.pos_of_ne_zero hd)
    have hdz : d / g ≠ 0 :=
      Nat.pos_iff_ne_zero.mp
        (Nat.div_pos (Nat.le_of_dvd (Nat.pos_of_ne_zero hd) (Nat.gcd_dvd_right n d)) hg)
    have hcop : Nat.Coprime (n / g) (d / g) := Nat.coprime_div_gcd_div_gcd hg
    if sgnNeg then ⟨-(n / g : Nat), d / g, hdz, by simpa using hcop⟩
    else ⟨(n / g : Nat), d / g, hdz, by simpa using hcop⟩

/-- Splits a character list at the first exponent marker `e`/`E`. -/
def splitAtExp : List Char → List Char × Option (List Char)
  | [] => ([], none)
  | c :: rest =>
    if c = 'e' ∨ c = 'E' then ([], some rest)
    else
      let p := splitAtExp rest
      (c :: p.1, p.2)

/-- Splits a character list at the first decimal point. -/
def splitAtDot : List Char → List Char × Option (List Char)
  | [] => ([], none)
  | c :: rest =>
    if c = '.' then ([], some rest)
    else
      let p := splitAtDot rest
      (c :: p.1, p.2)

/-- Parses the mantissa of a float literal (digits with an optional decimal
point, at least one digit overall); returns `(n, k)` with value `n / 10^k`. -/
def parseMantissa (cs : List Char) : Option (Nat × Nat) :=
  let p := splitAtDot cs
  match p.2 with
  | none =>
    if p.1 ≠ [] ∧ p.1.all Char.isDigit then some (decToNat p.1, 0) else none
  | some frac =>
    if (p.1 ≠ [] ∨ frac ≠ []) ∧ p.1.all Char.isDigit ∧ frac.all Char.isDigit then
      some (decToNat p.1 * 10 ^ frac.length + decToNat frac, frac.length)
    else none

/-- Parses the exponent of a float literal: optional sign, then at least one
digit; returns the sign and magnitude. -/
def parseExponent (cs : List Char) : Option (Bool × Nat) :=
  let p : Bool × List Char :=
    match cs with
    | '+' :: rest => (false, rest)
    | '-' :: rest => (true, rest)
    | rest => (false, rest)
  if p.2 ≠ [] ∧ p.2.all Char.isDigit then some (p.1, decToNat p.2) else none

/-- Python's `float(...)` on finite decimal literals, as an exact rational;
`none` models a raised `ValueError`. -/
def pyFloat (s : String) : Option ℚ :=
  let q : Bool × List Char :=
    match s.data with
    | '+' :: rest => (false, rest)
    | '-' :: rest => (true, rest)
    | rest => (false, rest)
  let me := splitAtExp q.2
  match parseMantissa me.1 with
  | none => none
  | some nf =>
    match me.2 with
    | none => some (ratNormalize q.1 nf.1 (10 ^ nf.2))
    | some ecs =>
      match parseExponent ecs with
      | none => none
      | some e =>
        if e.1 then some (ratNormalize q.1 nf.1 (10 ^ nf.2 * 10 ^ e.2))
        else some (ratNormalize q.1 (nf.1 * 10 ^ e.2) (10 ^ nf.2))

example : pyFloat "1.0" = some 1 := by decide
example : pyFloat "2.0" = some 2 := by decide
example : pyFloat "CUDA" = none := by decide
example : pyFloat "1e2" = some 100 := by decide

deriving instance DecidableEq for Except

/-- One parsed benchmark result, the dictionary appended to `output` at
source line 225. -/
structure CeleroRecord where
  group : String
  benchmark_name : String
  data_sizes : List Nat
  times : List ℚ
  extra_data : List (String × String)
  deriving Repr, DecidableEq

/-- The enumerated reader states of the `read_state` class. -/
inductive read_state where
  | start
  | header
  | result_row
  | finished
  deriving Repr, DecidableEq

/-- The mutable variables of the `read_celero_recordTable` loop.  `group` is
assigned but never read by the source (records use `group_name`); it is kept
for faithfulness. -/
structure ReaderState where
  output : List CeleroRecord
  state : read_state
  group : String
  group_name : String
  data_sizes : List Nat
  other_fields : List String
  split_start : Nat
  split_end : Nat
  deriving Repr, DecidableEq

/-- The variables as initialised before the loop (source lines 171-178).
`group_name` is unassigned in Python until the first group row; it is `""`
here, and is always overwritten before being read. -/
def initState : ReaderState :=
  { output := [], state := read_state.start, group := "", group_name := "",
    data_sizes := [], other_fields := [], split_start := 0, split_end := 0 }

/-- The function `parse_celero_recordTable_header`: splits an (already tokenised) header
row into data sizes, other fields and the two column offsets. -/
def parse_celero_recordTable_header (header_row : List String) :
    List Nat × List String × Nat × Nat :=
  let data_sizes := header_row.filter (fun x => pyIsDigit x)
  let other_fields := header_row.filter (fun x => !pyIsDigit x)
  let other_fields2 := other_fields.filter (fun x => x != "")
  let split_start := other_fields2.length + 1
  let split_end := split_start + data_sizes.length
  (data_sizes.map pyInt, other_fields2, split_start, split_end)

/-- Python's `map(float, t_times)`: converts every time token, stopping with the
offending token at the first `ValueError`. -/
def mapFloats : List String → Except String (List ℚ)
  | [] => Except.ok []
  | t :: rest =>
    match pyFloat t with
    | none => Except.error t
    | some q => (mapFloats rest).map (fun qs => q :: qs)

/-- The end-of-group reset at the top of the loop body (source lines
183-190): when the state is `finished`, clear the per-group variables —
but not `group_name` — and return to `start`. -/
def resetIfFinished (s : ReaderState) : ReaderState :=
  if s.state = read_state.finished then
    { s with group := "", data_sizes := [], other_fields := [],
             split_start := 0, split_end := 0, state := read_state.start }
  else s

/-- The loop body after the reset: tokenise the line, handle the blank-line
transition and the three active states.  An uncaught `ValueError` from
`map(float, ...)` is the `Except.error` case. -/
def processLineCore (s : ReaderState) (line : String) : Except String ReaderState :=
  let fields := splitFields line
  if fields.length = 0 then
    Except.ok { s with state := read_state.finished }
  else if s.state = read_state.start then
    Except.ok { s with group_name := fields.headD "", state := read_state.header }
  else if s.state = read_state.header then
    let p := parse_celero_recordTable_header fields
    Except.ok { s with data_sizes := p.1, other_fields := p.2.1,
                       split_start := p.2.2.1, split_end := p.2.2.2,
                       state := read_state.result_row }
  else if s.state = read_state.result_row then
    let benchmark_name := fields.headD ""
    let other_data := (fields.drop 1).take (s.split_start - 1)
    let t_strs := (fields.drop s.split_start).take (s.split_end - s.split_start)
    match mapFloats t_strs with
    | Except.error t => Except.error ("could not convert string to float: " ++ t)
    | Except.ok t_times =>
      let extra_data := s.other_fields.zip other_data
      let result : CeleroRecord :=
        { group := s.group_name, benchmark_name := benchmark_name,
          data_sizes := s.data_sizes, times := t_times, extra_data := extra_data }
      Except.ok { s with output := s.output ++ [result] }
  else
    Except.ok s

/-- One full loop iteration. -/
def processLine (s : ReaderState) (line : String) : Except String ReaderState :=
  processLineCore (resetIfFinished s) line

/-- The loop over all lines of the file. -/
def processLines : ReaderState → List String → Except String ReaderState
  | s, [] => Except.ok s
  | s, l :: rest =>
    match processLine s l with
    | Except.error e => Except.error e
    | Except.ok s2 => processLines s2 rest

/-- The function `read_celero_recordTable` on a file given as its list of lines. -/
def read_celero_recordTable (lines : List String) : Except String (List CeleroRecord) :=
  (processLines initState lines).map (fun s => s.output)

/-- The function `list_recordTable_groups`: all `group` values, de-duplicated (`set`) and
sorted. -/
def list_recordTable_groups (results : List CeleroRecord) : List String :=
  let all_groups := results.map (fun r => r.group)
  let unique_groups := all_groups.dedup
  List.insertionSort (fun a b => a ≤ b) unique_groups

/-- Simulation relation used to relate a reader state carrying earlier
output `o1` (and possibly stale per-group variables) with a fresh one. -/
def Sim (o1 : List CeleroRecord) (s t : ReaderState) : Prop :=
  s.output = o1 ++ t.output ∧
  ((s.state = t.state ∧
    (s.state = read_state.start ∨ s.state = read_state.finished ∨
      s.group_name = t.group_name) ∧
    (s.state = read_state.finished ∨
      (s.group = t.group ∧ s.data_sizes = t.data_sizes ∧
       s.other_fields = t.other_fields ∧ s.split_start = t.split_start ∧
       s.split_end = t.split_end))) ∨
   (s.state = read_state.finished ∧ t.state = read_state.start ∧
    t.group = "" ∧ t.data_sizes = [] ∧ t.other_fields = [] ∧
    t.split_start = 0 ∧ t.split_end = 0))

/-- The relation `Sim` after the top-of-loop reset: states aligned, not `finished`, and
all per-group variables equal (the group name possibly differing only in
state `start`, where it is dead). -/
def SimCore (o1 : List CeleroRecord) (s t : ReaderState) : Prop :=
  s.output = o1 ++ t.output ∧ s.state = t.state ∧
  s.state ≠ read_state.finished ∧
  (s.state = read_state.start ∨ s.group_name = t.group_name) ∧
  s.group = t.group ∧ s.data_sizes = t.data_sizes ∧
  s.other_fields = t.other_fields ∧ s.split_start = t.split_start ∧
  s.split_end = t.split_end

lemma processLineCore_blank (s : ReaderState) (line : String)
    (h : splitFields line = []) :
    processLineCore s line = Except.ok { s with state := read_state.finished } := by
  simp [processLineCore, h]

lemma processLineCore_start (s : ReaderState) (line : String)
    (h : splitFields line ≠ []) (hs : s.state = read_state.start) :
    processLineCore s line =
      Except.ok { s with group_name := (splitFields line).headD "",
                         state := read_state.header } := by
  simp [processLineCore, List.length_eq_zero, h, hs]

lemma processLineCore_header (s : ReaderState) (line : String)
    (h : splitFields line ≠ []) (hs : s.state = read_state.header) :
    processLineCore s line =
      Except.ok { s with
        data_sizes := (parse_celero_recordTable_header (splitFields line)).1,
        other_fields := (parse_celero_recordTable_header (splitFields line)).2.1,
        split_start := (parse_celero_recordTable_header (splitFields line)).2.2.1,
        split_end := (parse_celero_recordTable_header (splitFields line)).2.2.2,
        state := read_state.result_row } := by
  simp [processLineCore, List.length_eq_zero, h, hs]

lemma processLineCore_result_err (s : ReaderState) (line : String) (t : String)
    (h : splitFields line ≠ []) (hs : s.state = read_state.result_row)
    (hm : mapFloats (((splitFields line).drop s.split_start).take
            (s.split_end - s.split_start)) = Except.error t) :
    processLineCore s line =
      Except.error ("could not convert string to float: " ++ t) := by
  simp [processLineCore, List.length_eq_zero, h, hs, hm]

lemma processLineCore_result_ok (s : ReaderState) (line : String) (ts : List ℚ)
    (h : splitFields line ≠ []) (hs : s.state = read_state.result_row)
    (hm : mapFloats (((splitFields line).drop s.split_start).take
            (s.split_end - s.split_start)) = Except.ok ts) :
    processLineCore s line =
      Except.ok { s with output := s.output ++
        [{ group := s.group_name,
           benchmark_name := (splitFields line).headD "",
           data_sizes := s.data_sizes,
           times := ts,
           extra_data := s.other_fields.zip
             (((splitFields line).drop 1).take (s.split_start - 1)) }] } := by
  simp [processLineCore, List.length_eq_zero, h, hs, hm]

lemma processLines_cons (s : ReaderState) (l : String) (rest : List String) :
    processLines s (l :: rest) =
      (processLine s l).bind (fun s2 => processLines s2 rest) := by
  cases h : processLine s l <;> simp [processLines, h, Except.bind]

lemma processLines_append (xs ys : List String) :
    ∀ s : ReaderState,
      processLines s (xs ++ ys) =
        (processLines s xs).bind (fun s2 => processLines s2 ys) := by
  induction xs with
  | nil => intro s; simp [processLines, Except.bind]
  | cons l rest ih =>
    intro s
    rw [List.cons_append, processLines_cons, processLines_cons]
    cases h : processLine s l <;> simp [Except.bind, ih]

lemma mapFloats_ok_of_isSome :
    ∀ ts : List String, (∀ t ∈ ts, (pyFloat t).isSome) →
      ∃ qs, mapFloats ts = Except.ok qs ∧ qs.length = ts.length := by
  intro ts
  induction ts with
  | nil => intro _; exact ⟨[], rfl, rfl⟩
  | cons t rest ih =>
    intro h
    obtain ⟨q, hq⟩ := Option.isSome_iff_exists.mp (h t (by simp))
    obtain ⟨qs, hqs, hlen⟩ := ih (fun x hx => h x (by simp [hx]))
    exact ⟨q :: qs, by simp [mapFloats, hq, hqs, Except.map], by simp [hlen]⟩

lemma mapFloats_error_mem :
    ∀ (ts : List String) (t : String), mapFloats ts = Except.error t →
      t ∈ ts ∧ pyFloat t = none := by
  intro ts
  induction ts with
  | nil => intro t h; simp [mapFloats] at h
  | cons x rest ih =>
    intro t h
    cases hpx : pyFloat x with
    | none =>
      simp [mapFloats, hpx] at h
      subst h
      exact ⟨by simp, hpx⟩
    | some q =>
      cases hm : mapFloats rest with
      | error e =>
        simp [mapFloats, hpx, hm, Except.map] at h
        subst h
        obtain ⟨hmem, hnone⟩ := ih e hm
        exact ⟨by simp [hmem], hnone⟩
      | ok qs => simp [mapFloats, hpx, hm, Except.map] at h

lemma sim_reset (o1 : List CeleroRecord) (s t : ReaderState) (h : Sim o1 s t) :
    SimCore o1 (resetIfFinished s) (resetIfFinished t) := by
  obtain ⟨ho, hca⟩ := h
  rcases hca with ⟨hst, hgn, hfl⟩ | ⟨hsf, hts, h1, h2, h3, h4, h5⟩
  · by_cases hf : s.state = read_state.finished
    · have htf : t.state = read_state.finished := hst ▸ hf
      refine ⟨?_, ?_, ?_, ?_, ?_, ?_, ?_, ?_, ?_⟩ <;>
        simp [resetIfFinished, hf, htf, ho]
    · have htf : ¬ t.state = read_state.finished := by rw [← hst]; exact hf
      have hgn2 : s.state = read_state.start ∨ s.group_name = t.group_name := by
        rcases hgn with h1 | h1 | h1
        · exact Or.inl h1
        · exact absurd h1 hf
        · exact Or.inr h1
      have hfl2 := hfl.resolve_left hf
      have hgn3 : t.state = read_state.start ∨ s.group_name = t.group_name := by
        rwa [hst] at hgn2
      refine ⟨?_, ?_, ?_, ?_, ?_, ?_, ?_, ?_, ?_⟩ <;>
        simp [resetIfFinished, hf, htf, ho, hst, hgn3, hfl2.1, hfl2.2.1,
              hfl2.2.2.1, hfl2.2.2.2.1, hfl2.2.2.2.2]
  · have htf : ¬ t.state = read_state.finished := by rw [hts]; decide
    refine ⟨?_, ?_, ?_, ?_, ?_, ?_, ?_, ?_, ?_⟩ <;>
      simp [resetIfFinished, hsf, htf, ho, hts, h1, h2, h3, h4, h5]

lemma sim_core_step (o1 : List CeleroRecord) (s t : ReaderState) (line : String)
    (h : SimCore o1 s t) :
    (∃ e, processLineCore s line = Except.error e ∧
          processLineCore t line = Except.error e) ∨
    (∃ s' t', processLineCore s line = Except.ok s' ∧
              processLineCore t line = Except.ok t' ∧ Sim o1 s' t') := by
  obtain ⟨ho, hst, hnf, hgn, hg, hds, hof, hss, hse⟩ := h
  by_cases hb : splitFields line = []
  · right
    refine ⟨_, _, processLineCore_blank s line hb, processLineCore_blank t line hb, ?_⟩
    exact ⟨ho, Or.inl ⟨rfl, Or.inr (Or.inl rfl), Or.inl rfl⟩⟩
  · cases hsc : s.state with
    | finished => exact absurd hsc hnf
    | start =>
      have hts : t.state = read_state.start := hst ▸ hsc
      right
      refine ⟨_, _, processLineCore_start s line hb hsc,
        processLineCore_start t line hb hts, ?_⟩
      exact ⟨ho, Or.inl ⟨rfl, Or.inr (Or.inr rfl),
        Or.inr ⟨hg, hds, hof, hss, hse⟩⟩⟩
    | header =>
      have hts : t.state = read_state.header := hst ▸ hsc
      have hgneq : s.group_name = t.group_name := by
        rcases hgn with h1 | h1
        · rw [hsc] at h1; exact absurd h1 (by decide)
        · exact h1
      right
      refine ⟨_, _, processLineCore_header s line hb hsc,
        processLineCore_header t line hb hts, ?_⟩
      exact ⟨ho, Or.inl ⟨rfl, Or.inr (Or.inr hgneq), Or.inr ⟨hg, rfl, rfl, rfl, rfl⟩⟩⟩
    | result_row =>
      have hts : t.state = read_state.result_row := hst ▸ hsc
      have hgneq : s.group_name = t.group_name := by
        rcases hgn with h1 | h1
        · rw [hsc] at h1; exact absurd h1 (by decide)
        · exact h1
      cases hm : mapFloats (((splitFields line).drop s.split_start).take
          (s.split_end - s.split_start)) with
      | error e =>
        left
        refine ⟨_, processLineCore_result_err s line e hb hsc hm, ?_⟩
        have hm2 : mapFloats (((splitFields line).drop t.split_start).take
            (t.split_end - t.split_start)) = Except.error e := by
          rw [← hss, ← hse]; exact hm
        exact processLineCore_result_err t line e hb hts hm2
      | ok qs =>
        right
        have hm2 : mapFloats (((splitFields line).drop t.split_start).take
            (t.split_end - t.split_start)) = Except.ok qs := by
          rw [← hss, ← hse]; exact hm
        refine ⟨_, _, processLineCore_result_ok s line qs hb hsc hm,
          processLineCore_result_ok t line qs hb hts hm2, ?_⟩
        refine ⟨?_, Or.inl ⟨hst, Or.inr (Or.inr hgneq),
          Or.inr ⟨hg, hds, hof, hss, hse⟩⟩⟩
        simp [ho, hgneq, hds, hof, hss]

lemma sim_step (o1 : List CeleroRecord) (s t : ReaderState) (line : String)
    (h : Sim o1 s t) :
    (∃ e, processLine s line = Except.error e ∧
          processLine t line = Except.error e) ∨
    (∃ s' t', processLine s line = Except.ok s' ∧
              processLine t line = Except.ok t' ∧ Sim o1 s' t') :=
  sim_core_step o1 _ _ line (sim_reset o1 s t h)

lemma sim_run (o1 : List CeleroRecord) :
    ∀ (lines : List String) (s t : ReaderState), Sim o1 s t →
      (∃ e, processLines s lines = Except.error e ∧
            processLines t lines = Except.error e) ∨
      (∃ s' t', processLines s lines = Except.ok s' ∧
                processLines t lines = Except.ok t' ∧ Sim o1 s' t') := by
  intro lines
  induction lines with
  | nil => intro s t h; right; exact ⟨s, t, rfl, rfl, h⟩
  | cons l rest ih =>
    intro s t h
    rcases sim_step o1 s t l h with ⟨e, hs1, ht1⟩ | ⟨s2, t2, hs1, ht1, h2⟩
    · left
      exact ⟨e, by rw [processLines_cons, hs1]; rfl,
        by rw [processLines_cons, ht1]; rfl⟩
    · rcases ih s2 t2 h2 with ⟨e, h3, h4⟩ | ⟨s', t', h3, h4, h5⟩
      · left
        refine ⟨e, ?_, ?_⟩
        · rw [processLines_cons, hs1]; simpa [Except.bind] using h3
        · rw [processLines_cons, ht1]; simpa [Except.bind] using h4
      · right
        refine ⟨s', t', ?_, ?_, h5⟩
        · rw [processLines_cons, hs1]; simpa [Except.bind] using h3
        · rw [processLines_cons, ht1]; simpa [Except.bind] using h4

lemma sim_output (o1 : List CeleroRecord) (lines : List String)
    (s t : ReaderState) (h : Sim o1 s t) :
    (processLines s lines).map (fun st => st.output) =
      ((processLines t lines).map (fun st => st.output)).map
        (fun o => o1 ++ o) := by
  rcases sim_run o1 lines s t h with ⟨e, h1, h2⟩ | ⟨s', t', h1, h2, h3⟩
  · rw [h1, h2]; rfl
  · rw [h1, h2]
    obtain ⟨ho, _⟩ := h3
    simp [Except.map, ho]

lemma parse_header_spec (row : List String) :
    (parse_celero_recordTable_header row).1 =
      (row.filter (fun x => pyIsDigit x)).map pyInt ∧
    (parse_celero_recordTable_header row).2.1 =
      row.filter (fun x => x != "" && !pyIsDigit x) ∧
    (parse_celero_recordTable_header row).2.2.1 =
      (parse_celero_recordTable_header row).2.1.length + 1 ∧
    (parse_celero_recordTable_header row).2.2.2 =
      (parse_celero_recordTable_header row).2.2.1 +
        (parse_celero_recordTable_header row).1.length := by
  refine ⟨rfl, ?_, rfl, ?_⟩
  · simp [parse_celero_recordTable_header, List.filter_filter]
  · simp [parse_celero_recordTable_header, List.length_map]

lemma resetIfFinished_result (s : ReaderState)
    (h : s.state = read_state.result_row) : resetIfFinished s = s := by
  simp [resetIfFinished, h]

lemma result_rows_inv (M : Nat) :
    ∀ (rows : List String) (s : ReaderState),
      s.state = read_state.result_row →
      s.data_sizes.length = M →
      s.split_end = s.split_start + M →
      1 ≤ s.split_start →
      (∀ r ∈ rows, (splitFields r).length = s.split_start + M ∧
        ∀ t ∈ (splitFields r).drop s.split_start, (pyFloat t).isSome) →
      ∃ s', processLines s rows = Except.ok s' ∧
        ∀ rec ∈ s'.output, rec ∈ s.output ∨
          (rec.times.length = M ∧ rec.data_sizes.length = M) := by
  intro rows
  induction rows with
  | nil => intro s _ _ _ _ _; exact ⟨s, rfl, fun rec hr => Or.inl hr⟩
  | cons r rest ih =>
    intro s h1 h2 h3 hss h4
    obtain ⟨hlen, hfl⟩ := h4 r (by simp)
    have hne : splitFields r ≠ [] := by
      intro hnil
      rw [hnil] at hlen
      simp at hlen
      omega
    have hdroplen : ((splitFields r).drop s.split_start).length = M := by
      simp [List.length_drop, hlen]
    have htake : ((splitFields r).drop s.split_start).take
        (s.split_end - s.split_start) = (splitFields r).drop s.split_start := by
      have hm : s.split_end - s.split_start = M := by omega
      rw [hm]
      exact List.take_of_length_le (le_of_eq hdroplen)
    obtain ⟨qs, hqs, hqlen⟩ := mapFloats_ok_of_isSome _ hfl
    have hstep := processLineCore_result_ok s r qs hne h1 (by rw [htake]; exact hqs)
    have hline : processLine s r = Except.ok { s with output := s.output ++
        [{ group := s.group_name,
           benchmark_name := (splitFields r).headD "",
           data_sizes := s.data_sizes,
           times := qs,
           extra_data := s.other_fields.zip
             (((splitFields r).drop 1).take (s.split_start - 1)) }] } := by
      rw [processLine, resetIfFinished_result s h1]
      exact hstep
    obtain ⟨s', h5, h6⟩ := ih
      { s with output := s.output ++
        [{ group := s.group_name,
           benchmark_name := (splitFields r).headD "",
           data_sizes := s.data_sizes,
           times := qs,
           extra_data := s.other_fields.zip
             (((splitFields r).drop 1).take (s.split_start - 1)) }] }
      h1 h2 h3 hss (fun x hx => h4 x (by simp [hx]))
    refine ⟨s', ?_, ?_⟩
    · rw [processLines_cons, hline]
      simpa [Except.bind] using h5
    · intro rec hr
      rcases h6 rec hr with hmem | hgood
      · simp at hmem
        rcases hmem with hmem | hmem
        · exact Or.inl hmem
        · right
          rw [hmem]
          exact ⟨hqlen.trans hdroplen, h2⟩
      · exact Or.inr hgood

lemma resetIfFinished_initState : resetIfFinished initState = initState := by
  simp [resetIfFinished, initState]

lemma mapFloats_error_of_ex :
    ∀ ts : List String, (∃ t ∈ ts, pyFloat t = none) →
      ∃ t, mapFloats ts = Except.error t ∧ pyFloat t = none := by
  intro ts
  induction ts with
  | nil => intro h; simp at h
  | cons x rest ih =>
    intro h
    cases hpx : pyFloat x with
    | none => exact ⟨x, by simp [mapFloats, hpx], hpx⟩
    | some q =>
      obtain ⟨t, hmem, hnone⟩ := h
      have ht : t ∈ rest := by
        rcases List.mem_cons.mp hmem with h1 | h1
        · subst h1; rw [hpx] at hnone; cases hnone
        · exact h1
      obtain ⟨t2, hm, hn2⟩ := ih ⟨t, ht, hnone⟩
      exact ⟨t2, by simp [mapFloats, hpx, hm, Except.map], hn2⟩

/-- C1: for every well-formed single-group input — a non-blank group-name
line, a non-blank header line whose parse yields M data sizes, and result
rows that each carry exactly one benchmark-name token, one token per extra
field and one float-parseable token per size — parsing succeeds and every
emitted record satisfies `len(times) = len(data_sizes) = M`. -/
theorem C1_record_lengths (g h2 : String) (rows : List String)
    (hg : splitFields g ≠ []) (hh : splitFields h2 ≠ [])
    (hrows : ∀ r ∈ rows,
      (splitFields r).length =
        (parse_celero_recordTable_header (splitFields h2)).2.2.1 +
          (parse_celero_recordTable_header (splitFields h2)).1.length ∧
      ∀ t ∈ (splitFields r).drop
          (parse_celero_recordTable_header (splitFields h2)).2.2.1,
        (pyFloat t).isSome) :
    ∃ out, read_celero_recordTable (g :: h2 :: rows) = Except.ok out ∧
      ∀ rec ∈ out,
        rec.times.length =
          (parse_celero_recordTable_header (splitFields h2)).1.length ∧
        rec.data_sizes.length =
          (parse_celero_recordTable_header (splitFields h2)).1.length := by
  have hstep1 : processLine initState g = Except.ok
      { initState with group_name := (splitFields g).headD "",
                       state := read_state.header } := by
    rw [processLine, resetIfFinished_initState]
    exact processLineCore_start initState g hg rfl
  have r1 : resetIfFinished
      { initState with group_name := (splitFields g).headD "",
                       state := read_state.header } =
      { initState with group_name := (splitFields g).headD "",
                       state := read_state.header } := by
    simp [resetIfFinished]
  have hstep2 : processLine
      { initState with group_name := (splitFields g).headD "",
                       state := read_state.header } h2 = Except.ok
      { initState with
        group_name := (splitFields g).headD "",
        data_sizes := (parse_celero_recordTable_header (splitFields h2)).1,
        other_fields := (parse_celero_recordTable_header (splitFields h2)).2.1,
        split_start := (parse_celero_recordTable_header (splitFields h2)).2.2.1,
        split_end := (parse_celero_recordTable_header (splitFields h2)).2.2.2,
        state := read_state.result_row } := by
    rw [processLine, r1]
    exact processLineCore_header _ h2 hh rfl
  obtain ⟨s', hrun, hout⟩ := result_rows_inv
    (parse_celero_recordTable_header (splitFields h2)).1.length rows
    { initState with
      group_name := (splitFields g).headD "",
      data_sizes := (parse_celero_recordTable_header (splitFields h2)).1,
      other_fields := (parse_celero_recordTable_header (splitFields h2)).2.1,
      split_start := (parse_celero_recordTable_header (splitFields h2)).2.2.1,
      split_end := (parse_celero_recordTable_header (splitFields h2)).2.2.2,
      state := read_state.result_row }
    rfl rfl
    ((parse_header_spec (splitFields h2)).2.2.2)
    (by rw [(parse_header_spec (splitFields h2)).2.2.1]
        show 1 ≤ (parse_celero_recordTable_header (splitFields h2)).2.1.length + 1
        omega)
    hrows
  refine ⟨s'.output, ?_, ?_⟩
  · rw [read_celero_recordTable, processLines_cons, hstep1]
    show (processLines _ (h2 :: rows)).map _ = _
    rw [processLines_cons, hstep2]
    show (processLines _ rows).map _ = _
    rw [hrun]
    rfl
  · intro rec hr
    rcases hout rec hr with hmem | hgood
    · simp [initState] at hmem
    · exact hgood

/-- C1 witness: the well-formedness hypotheses hold for a concrete
single-group input with M = 2, and both emitted lengths are 2. -/
theorem C1_record_lengths_witness :
    ∃ out, read_celero_recordTable
        ["G", ",AF_PLATFORM,128,256", "cpu,CUDA,1.0,2.0"] = Except.ok out ∧
      ∀ rec ∈ out, rec.times.length = 2 ∧ rec.data_sizes.length = 2 :=
  C1_record_lengths "G" ",AF_PLATFORM,128,256" ["cpu,CUDA,1.0,2.0"]
    (by decide) (by decide) (by decide)

/-- C2: for every header row the header parser returns the digit-only
("numeric-parsable", per `isdigit`) tokens in order, parsed as integers, as
`data_sizes`; the non-empty non-numeric tokens in order as `other_fields`;
`split_start = 1 + len(other_fields)`; and
`split_end = split_start + len(data_sizes)`. -/
theorem C2_header_parse (row : List String) :
    (parse_celero_recordTable_header row).1 =
      (row.filter (fun x => pyIsDigit x)).map pyInt ∧
    (parse_celero_recordTable_header row).2.1 =
      row.filter (fun x => x != "" && !pyIsDigit x) ∧
    (parse_celero_recordTable_header row).2.2.1 =
      1 + (parse_celero_recordTable_header row).2.1.length ∧
    (parse_celero_recordTable_header row).2.2.2 =
      (parse_celero_recordTable_header row).2.2.1 +
        (parse_celero_recordTable_header row).1.length := by
  obtain ⟨h1, h2, h3, h4⟩ := parse_header_spec row
  exact ⟨h1, h2, by rw [h3]; omega, h4⟩

/-- C3: a section made of a group row, the header row `,AF_PLATFORM,128,256`
and the single data row `cpu,CUDA,1.0,2.0` yields exactly one record with
`data_sizes = [128, 256]`, `extra_data = {AF_PLATFORM: CUDA}`,
`times = [1.0, 2.0]` and `benchmark_name = "cpu"`. -/
theorem C3_example_section :
    read_celero_recordTable ["G", ",AF_PLATFORM,128,256", "cpu,CUDA,1.0,2.0"] =
      Except.ok [{ group := "G", benchmark_name := "cpu",
                   data_sizes := [128, 256], times := [1, 2],
                   extra_data := [("AF_PLATFORM", "CUDA")] }] := by
  decide

/-- C9: for every input record list, `list_recordTable_groups` returns the
distinct group values as a strictly sorted (hence duplicate-free) list. -/
theorem C9_groups_sorted (results : List CeleroRecord) :
    (list_recordTable_groups results).Sorted (fun a b => a < b) ∧
    ∀ g, g ∈ list_recordTable_groups results ↔ ∃ r ∈ results, r.group = g := by
  constructor
  · have hsorted : (list_recordTable_groups results).Sorted (fun a b => a ≤ b) :=
      List.sorted_insertionSort _ _
    have hnd : (list_recordTable_groups results).Nodup :=
      (List.perm_insertionSort _ _).nodup_iff.mpr (List.nodup_dedup _)
    exact hsorted.lt_of_le hnd
  · intro g
    rw [list_recordTable_groups, (List.perm_insertionSort _ _).mem_iff]
    simp [List.mem_dedup]

lemma resetIfFinished_output (s : ReaderState) :
    (resetIfFinished s).output = s.output := by
  by_cases h : s.state = read_state.finished <;> simp [resetIfFinished, h]

lemma splitFields_empty : splitFields "" = [] := by decide

lemma except_map_nil_append (y : Except String (List CeleroRecord)) :
    y.map (fun o => ([] : List CeleroRecord) ++ o) = y := by
  cases y <;> simp [Except.map]

lemma processLine_blank (s : ReaderState) :
    processLine s "" =
      Except.ok { resetIfFinished s with state := read_state.finished } := by
  rw [processLine]
  exact processLineCore_blank _ _ splitFields_empty

/-- C4: concatenating two independently parseable inputs with one blank line
between them yields exactly the records of the first followed by the records
of the second, in order. -/
theorem C4_concat_sections (sec1 sec2 : List String) (o1 o2 : List CeleroRecord)
    (h1 : read_celero_recordTable sec1 = Except.ok o1)
    (h2 : read_celero_recordTable sec2 = Except.ok o2) :
    read_celero_recordTable (sec1 ++ "" :: sec2) = Except.ok (o1 ++ o2) := by
  cases hh : processLines initState sec1 with
  | error e =>
    rw [read_celero_recordTable, hh] at h1
    exact absurd h1 (by simp [Except.map])
  | ok s1 =>
    have hs1o : s1.output = o1 := by
      rw [read_celero_recordTable, hh] at h1
      simpa [Except.map] using h1
    have hsim : Sim o1 { resetIfFinished s1 with state := read_state.finished }
        initState := by
      refine ⟨?_, Or.inr ⟨rfl, rfl, rfl, rfl, rfl, rfl, rfl⟩⟩
      show (resetIfFinished s1).output = o1 ++ initState.output
      rw [resetIfFinished_output, hs1o]
      simp [initState]
    have hout := sim_output o1 sec2 _ initState hsim
    rw [read_celero_recordTable] at h2 ⊢
    rw [processLines_append, hh]
    show (processLines s1 ("" :: sec2)).map (fun s => s.output) = _
    rw [processLines_cons, processLine_blank s1]
    show (processLines { resetIfFinished s1 with state := read_state.finished }
      sec2).map (fun s => s.output) = _
    rw [hout, h2]
    rfl

/-- C4 witness: two concrete one-row sections concatenate to the two records
in order. -/
theorem C4_concat_sections_witness :
    read_celero_recordTable
        (["G1", ",AF_PLATFORM,4", "cpu,CUDA,1.0"] ++
          "" :: ["G2", ",AF_PLATFORM,8", "gpu,OpenCL,2.0"]) =
      Except.ok
        ([{ group := "G1", benchmark_name := "cpu", data_sizes := [4],
            times := [1], extra_data := [("AF_PLATFORM", "CUDA")] }] ++
         [{ group := "G2", benchmark_name := "gpu", data_sizes := [8],
            times := [2], extra_data := [("AF_PLATFORM", "OpenCL")] }]) :=
  C4_concat_sections _ _ _ _ (by decide) (by decide)

lemma except_bind_ok (a : ReaderState) (f : ReaderState → Except String ReaderState) :
    (Except.ok a : Except String ReaderState).bind f = f a := rfl

/-- C8: a blank line immediately after a group-name row yields zero records
for that section, and parsing resumes with the next line as a fresh group
start; moreover a blank line in any state sends the reader to `finished`. -/
theorem C8_blank_after_group :
    (∀ (g : String) (rest : List String), splitFields g ≠ [] →
      read_celero_recordTable (g :: "" :: rest) = read_celero_recordTable rest) ∧
    (∀ (s : ReaderState) (line : String), splitFields line = [] →
      processLine s line =
        Except.ok { resetIfFinished s with state := read_state.finished }) := by
  constructor
  · intro g rest hg
    have hstep1 : processLine initState g = Except.ok
        { initState with group_name := (splitFields g).headD "",
                         state := read_state.header } := by
      rw [processLine, resetIfFinished_initState]
      exact processLineCore_start initState g hg rfl
    have r1 : resetIfFinished
        { initState with group_name := (splitFields g).headD "",
                         state := read_state.header } =
        { initState with group_name := (splitFields g).headD "",
                         state := read_state.header } := by
      simp [resetIfFinished]
    have hsim : Sim []
        { initState with group_name := (splitFields g).headD "",
                         state := read_state.finished } initState :=
      ⟨rfl, Or.inr ⟨rfl, rfl, rfl, rfl, rfl, rfl, rfl⟩⟩
    have hout := sim_output [] rest _ initState hsim
    rw [except_map_nil_append] at hout
    rw [read_celero_recordTable, read_celero_recordTable]
    simp only [processLines_cons, hstep1, processLine_blank, r1, except_bind_ok]
    exact hout
  · intro s line h
    rw [processLine]
    exact processLineCore_blank _ _ h

/-- C8 witness: a concrete group row followed by a blank line contributes no
records, and a blank line from the initial state moves to `finished`. -/
theorem C8_blank_after_group_witness :
    read_celero_recordTable ["G", "", "H", ",4", "cpu,1.0"] =
      read_celero_recordTable ["H", ",4", "cpu,1.0"] ∧
    processLine initState "" =
      Except.ok { resetIfFinished initState with state := read_state.finished } :=
  ⟨C8_blank_after_group.1 "G" ["H", ",4", "cpu,1.0"] (by decide),
   C8_blank_after_group.2 initState "" (by decide)⟩

lemma blank_pair_output (rest : List String) (u : ReaderState) :
    (processLines { resetIfFinished { resetIfFinished u with
        state := read_state.finished } with state := read_state.finished }
      rest).map (fun st => st.output) =
    (processLines { resetIfFinished u with state := read_state.finished }
      rest).map (fun st => st.output) := by
  have houtp : (resetIfFinished { resetIfFinished u with
      state := read_state.finished }).output =
      ([] : List CeleroRecord) ++
        ({ resetIfFinished u with state := read_state.finished }).output := by
    rw [resetIfFinished_output]
    exact (List.nil_append _).symm
  have hsim : Sim []
      { resetIfFinished { resetIfFinished u with
          state := read_state.finished } with state := read_state.finished }
      { resetIfFinished u with state := read_state.finished } :=
    ⟨houtp, Or.inl ⟨rfl, Or.inr (Or.inl rfl), Or.inl rfl⟩⟩
  have hout := sim_output [] rest _ _ hsim
  rw [except_map_nil_append] at hout
  exact hout

/-- C10: runs of consecutive blank lines collapse — inserting an extra blank
line next to an existing one never changes the parse result — and leading
blank lines are skipped without emitting records. -/
theorem C10_blank_runs :
    (∀ (pre rest : List String),
      read_celero_recordTable (pre ++ "" :: "" :: rest) =
        read_celero_recordTable (pre ++ "" :: rest)) ∧
    (∀ rest : List String,
      read_celero_recordTable ("" :: rest) = read_celero_recordTable rest) := by
  constructor
  · intro pre rest
    rw [read_celero_recordTable, read_celero_recordTable,
        processLines_append, processLines_append]
    cases hh : processLines initState pre with
    | error e => rfl
    | ok s =>
      simp only [processLines_cons, processLine_blank, except_bind_ok]
      exact blank_pair_output rest s
  · intro rest
    rw [read_celero_recordTable, read_celero_recordTable,
        processLines_cons, processLine_blank initState]
    have hsim : Sim [] { resetIfFinished initState with
        state := read_state.finished } initState := by
      refine ⟨?_, Or.inr ⟨rfl, rfl, rfl, rfl, rfl, rfl, rfl⟩⟩
      rw [resetIfFinished_output]
      exact (List.nil_append _).symm
    have hout := sim_output [] rest _ initState hsim
    rw [except_map_nil_append] at hout
    simp only [except_bind_ok]
    exact hout

/-- C5 counterexample: in the input below the header gives
`split_start = 3`, `split_end = 4`; the unfiltered result row
`cpu,,x,5.0` has the parseable time token `5.0` (value 5) at the claimed
time positions `[3, 4)` and `["", "x"]` at the claimed extra positions
`[1, 3)`, yet the emitted record has `times = []` and
`extra_data = [(A, x), (B, 5.0)]` — the parser filtered the empty token
out of the result row before slicing, so the claim is false here. -/
theorem C5_counterexample :
    read_celero_recordTable ["G", ",A,B,128", "cpu,,x,5.0"] =
      Except.ok [{ group := "G", benchmark_name := "cpu", data_sizes := [128],
                   times := [], extra_data := [("A", "x"), ("B", "5.0")] }] ∧
    read_celero_recordTable ["G", ",A,B,128", "cpu,,x,5.0"] ≠
      Except.ok [{ group := "G", benchmark_name := "cpu", data_sizes := [128],
                   times := [5], extra_data := [("A", ""), ("B", "x")] }] ∧
    (parse_celero_recordTable_header (splitFields ",A,B,128")).2.2.1 = 3 ∧
    (parse_celero_recordTable_header (splitFields ",A,B,128")).2.2.2 = 4 ∧
    ((splitOnComma "cpu,,x,5.0").drop 3).take 1 = ["5.0"] ∧
    pyFloat "5.0" = some 5 ∧
    ((splitOnComma "cpu,,x,5.0").drop 1).take 2 = ["", "x"] := by
  decide

/-- C5 (amended): empty tokens ARE removed from result rows — like from
every line — before positional slicing; the extra-data values are the
fields at positions `[1, split_start)` and the times the fields at
positions `[split_start, split_end)` of the empty-filtered token list. -/
theorem C5_amended_filtered_slicing (s : ReaderState) (line : String)
    (ts : List ℚ)
    (hs : s.state = read_state.result_row)
    (hnb : (splitOnComma line).filter (fun x => x != "") ≠ [])
    (hm : mapFloats ((((splitOnComma line).filter (fun x => x != "")).drop
        s.split_start).take (s.split_end - s.split_start)) = Except.ok ts) :
    processLine s line = Except.ok { s with output := s.output ++
      [{ group := s.group_name,
         benchmark_name := ((splitOnComma line).filter (fun x => x != "")).headD "",
         data_sizes := s.data_sizes,
         times := ts,
         extra_data := s.other_fields.zip
           ((((splitOnComma line).filter (fun x => x != "")).drop 1).take
             (s.split_start - 1)) }] } := by
  rw [processLine, resetIfFinished_result s hs]
  exact processLineCore_result_ok s line ts hnb hs hm

/-- C5 witness: the amended slicing evaluated on the counterexample row. -/
theorem C5_amended_filtered_slicing_witness :
    processLine
      { output := [], state := read_state.result_row, group := "",
        group_name := "G", data_sizes := [128], other_fields := ["A", "B"],
        split_start := 3, split_end := 4 } "cpu,,x,5.0" =
    Except.ok
      { output := [{ group := "G", benchmark_name := "cpu",
                     data_sizes := [128], times := [],
                     extra_data := [("A", "x"), ("B", "5.0")] }],
        state := read_state.result_row, group := "",
        group_name := "G", data_sizes := [128], other_fields := ["A", "B"],
        split_start := 3, split_end := 4 } :=
  C5_amended_filtered_slicing _ "cpu,,x,5.0" [] rfl (by decide) (by decide)

/-- C6 counterexample: the header row `,AF_PLATFORM,128,abc` carries the
non-numeric token `abc` after a size token, yet parsing does not fail —
`abc` is silently classified as an extra field and a record is emitted. -/
theorem C6_counterexample :
    pyIsDigit "abc" = false ∧
    read_celero_recordTable ["G", ",AF_PLATFORM,128,abc", "cpu,CUDA,1.0,5.0"] =
      Except.ok [{ group := "G", benchmark_name := "cpu", data_sizes := [128],
                   times := [5],
                   extra_data := [("AF_PLATFORM", "CUDA"), ("abc", "1.0")] }] := by
  decide

/-- C6 (amended): a non-numeric token in a header row never raises — it is
classified into `other_fields`; a non-float token in the time range of a
result row makes the parser fail with an uncaught `ValueError` naming the
offending field, the error names a genuinely non-float member of the time
slice, and no recovery is attempted: the error aborts the whole parse. -/
theorem C6_amended_error_behaviour :
    (∀ (row : List String) (x : String), x ∈ row → pyIsDigit x = false →
      x ≠ "" → x ∈ (parse_celero_recordTable_header row).2.1) ∧
    (∀ (s : ReaderState) (line : String) (t : String),
      s.state = read_state.result_row → splitFields line ≠ [] →
      mapFloats (((splitFields line).drop s.split_start).take
        (s.split_end - s.split_start)) = Except.error t →
      processLine s line =
        Except.error ("could not convert string to float: " ++ t)) ∧
    (∀ (ts : List String) (t : String), mapFloats ts = Except.error t →
      t ∈ ts ∧ pyFloat t = none) ∧
    (∀ (s : ReaderState) (l : String) (rest : List String) (e : String),
      processLine s l = Except.error e →
      processLines s (l :: rest) = Except.error e) := by
  refine ⟨?_, ?_, mapFloats_error_mem, ?_⟩
  · intro row x hx hdig hne
    rw [(parse_header_spec row).2.1]
    exact List.mem_filter.mpr ⟨hx, by simp [hdig, hne]⟩
  · intro s line t hs hnb hm
    rw [processLine, resetIfFinished_result s hs]
    exact processLineCore_result_err s line t hnb hs hm
  · intro s l rest e h
    rw [processLines_cons, h]
    rfl

/-- C6 witness: the amended behaviour evaluated on concrete inputs — the
non-digit header token `abc` lands in `other_fields`, and the result row
`cpu,CUDA,abc` with time slice `["abc"]` aborts the parse with the
`ValueError` message. -/
theorem C6_amended_error_behaviour_witness :
    "abc" ∈ (parse_celero_recordTable_header ["abc", "128"]).2.1 ∧
    processLine
      { output := [], state := read_state.result_row, group := "",
        group_name := "G", data_sizes := [128], other_fields := ["AF_PLATFORM"],
        split_start := 2, split_end := 3 } "cpu,CUDA,abc" =
      Except.error "could not convert string to float: abc" ∧
    ("abc" ∈ ["1.0", "abc"] ∧ pyFloat "abc" = none) ∧
    processLines
      { output := [], state := read_state.result_row, group := "",
        group_name := "G", data_sizes := [128], other_fields := ["AF_PLATFORM"],
        split_start := 2, split_end := 3 } ["cpu,CUDA,abc", "ignored"] =
      Except.error "could not convert string to float: abc" :=
  ⟨C6_amended_error_behaviour.1 ["abc", "128"] "abc" (by decide) (by decide)
    (by decide),
   C6_amended_error_behaviour.2.1 _ "cpu,CUDA,abc" "abc" rfl (by decide)
    (by decide),
   C6_amended_error_behaviour.2.2.1 ["1.0", "abc"] "abc" (by decide),
   C6_amended_error_behaviour.2.2.2 _ "cpu,CUDA,abc" ["ignored"] _
    (C6_amended_error_behaviour.2.1 _ "cpu,CUDA,abc" "abc" rfl (by decide)
      (by decide))⟩

/-- C7 counterexample: a result row with one time token under a two-size
header does not fail — the parser emits a record whose `times` (length 1)
is shorter than its `data_sizes` (length 2), so a partial record reaches
the output list. -/
theorem C7_counterexample :
    read_celero_recordTable ["G", ",AF_PLATFORM,128,256", "cpu,CUDA,1.0"] =
      Except.ok [{ group := "G", benchmark_name := "cpu",
                   data_sizes := [128, 256], times := [1],
                   extra_data := [("AF_PLATFORM", "CUDA")] }] ∧
    ([(1 : ℚ)] : List ℚ).length ≠ ([128, 256] : List Nat).length := by
  decide

/-- C7 (amended): a width mismatch between the header and a result row does
NOT raise an error: the slices clamp to the available fields, and a record
is appended whose `times` has `min(split_end - split_start, row_width -
split_start)` entries — possibly fewer than `data_sizes` — and whose
`extra_data` is truncated by `zip` the same way; fields beyond `split_end`
are ignored. -/
theorem C7_amended_row_clamping (s : ReaderState) (line : String)
    (hs : s.state = read_state.result_row)
    (hnb : splitFields line ≠ [])
    (hfl : ∀ t ∈ ((splitFields line).drop s.split_start).take
        (s.split_end - s.split_start), (pyFloat t).isSome) :
    ∃ rec, processLine s line =
        Except.ok { s with output := s.output ++ [rec] } ∧
      rec.times.length =
        min (s.split_end - s.split_start)
          ((splitFields line).length - s.split_start) ∧
      rec.data_sizes = s.data_sizes ∧
      rec.extra_data.length =
        min s.other_fields.length
          (min (s.split_start - 1) ((splitFields line).length - 1)) := by
  obtain ⟨qs, hqs, hqlen⟩ := mapFloats_ok_of_isSome _ hfl
  refine ⟨{ group := s.group_name,
            benchmark_name := (splitFields line).headD "",
            data_sizes := s.data_sizes,
            times := qs,
            extra_data := s.other_fields.zip
              (((splitFields line).drop 1).take (s.split_start - 1)) },
          ?_, ?_, rfl, ?_⟩
  · rw [processLine, resetIfFinished_result s hs]
    exact processLineCore_result_ok s line qs hnb hs hqs
  · rw [hqlen]
    simp [List.length_take, List.length_drop]
  · simp [List.length_zip, List.length_take, List.length_drop]

/-- C7 witness: the clamping behaviour evaluated on the short row
`cpu,CUDA,1.0` under the header offsets `split_start = 2, split_end = 4`:
one time against two data sizes, with no error. -/
theorem C7_amended_row_clamping_witness :
    ∃ rec, processLine
      { output := [], state := read_state.result_row, group := "",
        group_name := "G", data_sizes := [128, 256],
        other_fields := ["AF_PLATFORM"], split_start := 2, split_end := 4 }
      "cpu,CUDA,1.0" =
      Except.ok
        { output := [rec], state := read_state.result_row, group := "",
          group_name := "G", data_sizes := [128, 256],
          other_fields := ["AF_PLATFORM"], split_start := 2, split_end := 4 } ∧
      rec.times.length = 1 ∧ rec.data_sizes = [128, 256] ∧
      rec.extra_data.length = 1 :=
  C7_amended_row_clamping _ "cpu,CUDA,1.0" rfl (by decide) (by decide)
